import Mathlib

/-!
Verification of the HPOA annotation filtering and categorization engine of the
`aurelian` repository (`src/aurelian/agents/hpoa/hpoa_tools.py` and
`src/aurelian/agents/hpoa/hpoa_config.py`).

The embedding models:
* the SQLite-backed annotation store as a list of raw (nullable text) rows,
* the SQL expressions used by the queries (`UPPER`, `REPLACE`, `LIKE`,
  equality) as executable functions on lists of characters (ASCII case
  folding, exactly as SQLite performs it),
* pydantic validation of the `HPOA` row model as a partial function
  `RawRow → Option HPOA`,
* the oaklib ontology adapter as an abstract collaborator record whose calls
  may fail (`none` = the underlying call raised), with the module-level
  memoization dictionaries threaded explicitly as a `Caches` state,
* the dataset resolution / load pipeline (`fetch_and_parse_hpoa`) as a
  function over an environment record, with the external tab-separated
  parser (pandas `read_csv`) as an abstract collaborator.
-/

namespace Aurelian

/-- ASCII upper-casing of one character: what SQLite `UPPER` does, and what
Python `str.upper` does on ASCII input. -/
def asciiUpper (c : Char) : Char :=
  if 97 ≤ c.toNat ∧ c.toNat ≤ 122 then Char.ofNat (c.toNat - 32) else c

/-- ASCII lower-casing of one character: the fold SQLite `LIKE` applies to
both operands, and what Python `str.lower` does on ASCII input. -/
def asciiLower (c : Char) : Char :=
  if 65 ≤ c.toNat ∧ c.toNat ≤ 90 then Char.ofNat (c.toNat + 32) else c

theorem char_toNat_ofNat (n : Nat) (h : n < 55296) : (Char.ofNat n).toNat = n := by
  have hv : n.isValidChar := Or.inl h
  simp [Char.ofNat, hv, Char.ofNatAux, Char.toNat, UInt32.toNat, BitVec.toNat_ofNatLt]

theorem char_eq_of_toNat_eq {a b : Char} (h : a.toNat = b.toNat) : a = b := by
  apply Char.ext
  exact UInt32.ext h

/-- Lower-casing after upper-casing is plain lower-casing (ASCII). -/
theorem asciiLower_asciiUpper (c : Char) : asciiLower (asciiUpper c) = asciiLower c := by
  unfold asciiUpper asciiLower
  by_cases h : 97 ≤ c.toNat ∧ c.toNat ≤ 122
  · rw [if_pos h]
    have h1 : (Char.ofNat (c.toNat - 32)).toNat = c.toNat - 32 :=
      char_toNat_ofNat _ (by omega)
    rw [if_pos (by omega), if_neg (by omega)]
    apply char_eq_of_toNat_eq
    rw [char_toNat_ofNat _ (by omega), h1]
    omega
  · rw [if_neg h]

/-- The characters Python `str.strip()` removes (ASCII whitespace). -/
def isPyWs (c : Char) : Bool :=
  c == ' ' || c == '\t' || c == '\n' || c == '\r' || c.toNat == 11 || c.toNat == 12

/-- Python `str.strip()`: drop leading and trailing whitespace. -/
def pyStrip (l : List Char) : List Char :=
  ((l.dropWhile isPyWs).reverse.dropWhile isPyWs).reverse

/-- SQLite `LIKE` (no `ESCAPE` clause): `%` matches any character sequence,
`_` matches exactly one character, all other characters compare after ASCII
lower-casing of both operands.  First argument is the pattern. -/
def likeMatch : List Char → List Char → Bool
  | [], cs => cs.isEmpty
  | p :: ps, cs =>
    if p = '%' then cs.tails.any (fun t => likeMatch ps t)
    else
      match cs with
      | [] => false
      | c :: cs' =>
        if p = '_' then likeMatch ps cs'
        else (asciiLower p == asciiLower c) && likeMatch ps cs'

/-- Characters allowed in the identifier part of the CURIE regular expression
`(OMIM|ORPHA|MONDO|DECIPHER):[A-Z0-9_.-]+` of `filter_hpoa`. -/
def isIdChar (c : Char) : Bool :=
  (65 ≤ c.toNat && c.toNat ≤ 90) || (48 ≤ c.toNat && c.toNat ≤ 57)
    || c == '_' || c == '.' || c == '-'

/-- Try to match the CURIE alternative with database tag `p` (tag including
the colon, e.g. `OMIM:`) at the head of `s`: the tag followed by a greedy,
non-empty run of identifier characters (the regex `+`). -/
def matchCurieAt (p : List Char) (s : List Char) : Option (List Char) :=
  if p.isPrefixOf s then
    let run := (s.drop p.length).takeWhile isIdChar
    if run.isEmpty then none else some (p ++ run)
  else none

/-- Try the four CURIE alternatives at the head of `s`, in the order they
appear in the regular expression. -/
def matchAnyCurie (s : List Char) : Option (List Char) :=
  match matchCurieAt "OMIM:".toList s with
  | some m => some m
  | none =>
    match matchCurieAt "ORPHA:".toList s with
    | some m => some m
    | none =>
      match matchCurieAt "MONDO:".toList s with
      | some m => some m
      | none => matchCurieAt "DECIPHER:".toList s

/-- Python `re.search` of `(OMIM|ORPHA|MONDO|DECIPHER):[A-Z0-9_.-]+`:
the leftmost match, with the identifier run taken greedily. -/
def curieSearch : List Char → Option (List Char)
  | [] => none
  | c :: cs =>
    match matchAnyCurie (c :: cs) with
    | some m => some m
    | none => curieSearch cs

/-- Python `s.upper().replace(" ", "")` as `filter_hpoa` applies it to the
stripped query before looking for a CURIE. -/
def upperNoSpace (l : List Char) : List Char :=
  (l.map asciiUpper).filter (fun c => !(c == ' '))

/-- The normalized form of a `filter_hpoa` query: `label.strip()` followed by
`.upper().replace(" ", "")`. -/
def normalizeQuery (q : String) : List Char :=
  upperNoSpace (pyStrip q.toList)

/-- One row of the SQLite `hpoa` table (all columns are nullable `TEXT`),
as returned by `SELECT *` in the query tools. -/
structure RawRow where
  database_id : Option String
  disease_name : Option String
  qualifier : Option String
  hpo_id : Option String
  reference : Option String
  evidence : Option String
  onset : Option String
  frequency : Option String
  sex : Option String
  modifier : Option String
  aspect : Option String
  biocuration : Option String
deriving DecidableEq

/-- A validated annotation row: the pydantic `HPOA` model of
`hpoa_config.py` (required string fields present; `evidence`, `aspect`,
`qualifier`, `sex` restricted to their literal choices). -/
structure HPOA where
  database_id : String
  disease_name : String
  qualifier : Option String
  hpo_id : String
  reference : String
  evidence : String
  onset : Option String
  frequency : Option String
  sex : Option String
  modifier : Option String
  aspect : String
  biocuration : String
deriving DecidableEq

/-- The pydantic literal check for `qualifier`: `NULL`, the empty string or
`NOT`. -/
def qualifierOk (q : Option String) : Bool :=
  match q with
  | none => true
  | some s => s == "" || s == "NOT"

/-- The pydantic literal check for `sex`: `NULL`, the empty string, `MALE` or
`FEMALE`. -/
def sexOk (s : Option String) : Bool :=
  match s with
  | none => true
  | some v => v == "" || v == "MALE" || v == "FEMALE"

/-- Pydantic validation `HPOA(**row)` of one raw row: required fields
(`database_id`, `disease_name`, `hpo_id`, `reference`, `evidence`, `aspect`,
`biocuration`) must be non-NULL, `evidence ∈ {IEA, PCS, TAS}`,
`aspect ∈ {P, I, C, M}`, `qualifier ∈ {NULL, "", NOT}`,
`sex ∈ {NULL, "", MALE, FEMALE}`.  Returns `none` when validation raises
(the row is then skipped by the query tools). -/
def validHPOA? (r : RawRow) : Option HPOA :=
  match r.database_id, r.disease_name, r.hpo_id, r.reference,
        r.evidence, r.aspect, r.biocuration with
  | some db, some dn, some hid, some ref, some ev, some asp, some bio =>
    if (ev == "IEA" || ev == "PCS" || ev == "TAS")
        && (asp == "P" || asp == "I" || asp == "C" || asp == "M")
        && qualifierOk r.qualifier
        && sexOk r.sex
    then some { database_id := db, disease_name := dn, qualifier := r.qualifier,
                hpo_id := hid, reference := ref, evidence := ev, onset := r.onset,
                frequency := r.frequency, sex := r.sex, modifier := r.modifier,
                aspect := asp, biocuration := bio }
    else none
  | _, _, _, _, _, _, _ => none

/-- The SQL expression `UPPER(REPLACE(database_id, ' ', ''))`
(NULL-propagating). -/
def rowNormId (r : RawRow) : Option (List Char) :=
  r.database_id.map (fun d => (d.toList.filter (fun c => !(c == ' '))).map asciiUpper)

/-- The WHERE clause of the identifier branch of `filter_hpoa`:
`UPPER(REPLACE(database_id,' ','')) = qid`. -/
def dbIdMatches (qid : List Char) (r : RawRow) : Bool :=
  rowNormId r == some qid

/-- The WHERE clause of the label branch of `filter_hpoa`:
`disease_name LIKE '%' || q || '%' COLLATE NOCASE` (NULL never matches). -/
def nameLikeMatches (qRaw : List Char) (r : RawRow) : Bool :=
  match r.disease_name with
  | some dn => likeMatch ('%' :: (qRaw ++ ['%'])) dn.toList
  | none => false

/-- The tool `filter_hpoa` (hpoa_tools.py): strip the query; if its upper-cased,
space-removed form contains an OMIM/ORPHA/MONDO/DECIPHER CURIE, select rows
by normalized `database_id` equality with the extracted token, otherwise
select rows whose `disease_name` matches `LIKE '%query%'` case-insensitively;
finally validate each selected row, skipping rows that fail. -/
def filter_hpoa (store : List RawRow) (label : String) : List HPOA :=
  (match curieSearch (upperNoSpace (pyStrip label.toList)) with
   | some qid => store.filter (dbIdMatches qid)
   | none => store.filter (nameLikeMatches (pyStrip label.toList))).filterMap validHPOA?

/-- Python `s.replace("PMID:", "")`: remove every (non-overlapping,
left-to-right) occurrence of `PMID:`. -/
def removeAllPMID : List Char → List Char
  | 'P' :: 'M' :: 'I' :: 'D' :: ':' :: rest => removeAllPMID rest
  | c :: cs => c :: removeAllPMID cs
  | [] => []

/-- The WHERE clause of `filter_hpoa_by_pmid`:
`UPPER(reference) LIKE '%PMID:' || pid || '%'`. -/
def refLikeMatches (pid : List Char) (r : RawRow) : Bool :=
  match r.reference with
  | some ref => likeMatch ('%' :: ("PMID:".toList ++ pid ++ ['%'])) (ref.toList.map asciiUpper)
  | none => false

/-- The tool `filter_hpoa_by_pmid` (hpoa_tools.py): `pid = pmid.strip().replace("PMID:",
"").strip()`, then select rows with `UPPER(reference) LIKE '%PMID:pid%'` and
validate each selected row, skipping rows that fail. -/
def filter_hpoa_by_pmid (store : List RawRow) (pmid : String) : List HPOA :=
  (store.filter
    (refLikeMatches (pyStrip (removeAllPMID (pyStrip pmid.toList))))).filterMap validHPOA?

/-! ### Dataset loading (`fetch_and_parse_hpoa`, `ensure_hpoa_db`)

The load pipeline of `hpoa_config.py`.  The persisted `hpoa` table is the
state `Option (List RawRow)` (`none` = DB file or table absent).  The
tab-separated parser (pandas `read_csv`) is an external library, modelled as
the collaborator field `parse`; a parse failure is the propagated
`ParseError` of the spec's taxonomy, and a failed remote download
(`raise_for_status` / no matching asset) is its `DataUnavailable`. -/

inductive LoadError where
  | dataUnavailable
  | parseError
deriving DecidableEq

/-- The environment of one `fetch_and_parse_hpoa` call: the explicit `path`
argument, the `AURELIAN_HPOA_PATH` environment variable, the workdir
location, the file system, the remote download outcome, and the external
tab-separated parser. -/
structure FetchEnv where
  explicitPath : Option String
  envPath : Option String
  workdirLoc : Option String
  fs : String → Option String
  download : Option String
  parse : String → Except Unit (List RawRow)

/-- Python `if p and os.path.exists(p)` followed by reading the file: the text of an
optional path (Python treats the empty string as falsy). -/
def pathText (e : FetchEnv) : Option String → Option String
  | some p => if p = "" then none else e.fs p
  | none => none

/-- The cached copy `${workdir}/phenotype.hpoa`, guarded by
`if self.workdir and self.workdir.location`. -/
def cachedText (e : FetchEnv) : Option String :=
  match e.workdirLoc with
  | some w => if w = "" then none else e.fs (w ++ "/phenotype.hpoa")
  | none => none

/-- Parse a resolved source text and persist the rows (the
`_persist_df_to_db` / `_persist_hpoa_to_db` full table replacement).  A parse
failure propagates and leaves the table untouched, since parsing happens
before persisting. -/
def loadText (e : FetchEnv) (db : Option (List RawRow)) (text : String) :
    Except LoadError (List RawRow) × Option (List RawRow) :=
  match e.parse text with
  | .error _ => (.error .parseError, db)
  | .ok rows => (.ok rows, some rows)

/-- The loader `fetch_and_parse_hpoa`: resolution order explicit path, environment path,
cached workdir copy, remote download; the first resolved source is parsed and
persisted.  When no source resolves the load fails (the propagated download
error, `DataUnavailable`). -/
def fetch_and_parse_hpoa (e : FetchEnv) (db : Option (List RawRow)) :
    Except LoadError (List RawRow) × Option (List RawRow) :=
  match pathText e e.explicitPath with
  | some t => loadText e db t
  | none =>
    match pathText e e.envPath with
    | some t => loadText e db t
    | none =>
      match cachedText e with
      | some t => loadText e db t
      | none =>
        match e.download with
        | some t => loadText e db t
        | none => (.error .dataUnavailable, db)

/-- The guard `ensure_hpoa_db`: load only when the table is absent or empty, otherwise
no-op. -/
def ensure_hpoa_db (e : FetchEnv) (db : Option (List RawRow)) :
    Except LoadError Unit × Option (List RawRow) :=
  match db with
  | some (r :: rest) => (.ok (), some (r :: rest))
  | _ =>
    match fetch_and_parse_hpoa e db with
    | (.ok _, db') => (.ok (), db')
    | (.error err, db') => (.error err, db')

/-! ### Ontology adapter, module-level caches, category classification

The oaklib adapter is an external collaborator; each capability returns
`none` when the underlying call raises.  The module-level dictionaries
`_HP_LABEL_CACHE`, `_HP_ANCESTORS_CACHE`, `_HP_OUTGOING_CACHE`,
`_HP_CHILDREN_CACHE`, `_CATEGORY_LABEL_TO_ID` are the explicit `Caches`
state. -/

structure Adapter where
  label : String → Option (Option String)
  ancestors : String → Option (List String)
  outgoing : String → Option (List (String × String))
  children : String → Option (List String)
  search : Bool → String → Option (List String)

/-- The value `_hp_label` computes on a cache miss (`None` when the adapter
call raised). -/
def labelVal (a : Adapter) (k : String) : Option String :=
  match a.label k with | some v => v | none => none

/-- The value `_hp_ancestors` computes on a cache miss (`[]` when the adapter
call raised). -/
def ancestorsVal (a : Adapter) (k : String) : List String :=
  match a.ancestors k with | some v => v | none => []

/-- The value `_hp_outgoing` computes on a cache miss. -/
def outgoingVal (a : Adapter) (k : String) : List (String × String) :=
  match a.outgoing k with | some v => v | none => []

/-- The value `_hp_children` computes on a cache miss (`[]` when the adapter
lacks `children` or the call raised). -/
def childrenVal (a : Adapter) (k : String) : List String :=
  match a.children k with | some v => v | none => []

/-- Association-list lookup (a Python `dict` read). -/
def alookup {α : Type} : List (String × α) → String → Option α
  | [], _ => none
  | (k, v) :: rest, key => if k = key then some v else alookup rest key

/-- The five module-level memoization dictionaries of `hpoa_tools.py`. -/
structure Caches where
  labelC : List (String × Option String)
  ancestorsC : List (String × List String)
  outgoingC : List (String × List (String × String))
  childrenC : List (String × List String)
  categoryC : List (String × String)
deriving DecidableEq

def emptyCaches : Caches := ⟨[], [], [], [], []⟩

/-- The helper `_hp_label`: read-through cache over `adapter.label`. -/
def hpLabel (a : Adapter) (c : Caches) (k : String) : Option String × Caches :=
  match alookup c.labelC k with
  | some v => (v, c)
  | none => (labelVal a k, { c with labelC := (k, labelVal a k) :: c.labelC })

/-- The helper `_hp_ancestors`: read-through cache over `adapter.ancestors`. -/
def hpAncestors (a : Adapter) (c : Caches) (k : String) : List String × Caches :=
  match alookup c.ancestorsC k with
  | some v => (v, c)
  | none => (ancestorsVal a k, { c with ancestorsC := (k, ancestorsVal a k) :: c.ancestorsC })

/-- The helper `_hp_outgoing`: read-through cache over `adapter.outgoing_relationships`. -/
def hpOutgoing (a : Adapter) (c : Caches) (k : String) : List (String × String) × Caches :=
  match alookup c.outgoingC k with
  | some v => (v, c)
  | none => (outgoingVal a k, { c with outgoingC := (k, outgoingVal a k) :: c.outgoingC })

/-- The helper `_hp_children`: read-through cache over `adapter.children`. -/
def hpChildren (a : Adapter) (c : Caches) (k : String) : List String × Caches :=
  match alookup c.childrenC k with
  | some v => (v, c)
  | none => (childrenVal a k, { c with childrenC := (k, childrenVal a k) :: c.childrenC })

/-- The category root `HP:0000118` (Phenotypic abnormality). -/
def CATEGORY_ROOT : String := "HP:0000118"

/-- Python `s.startswith("HP:")`. -/
def hpStarts (t : String) : Bool := ("HP:".toList).isPrefixOf t.toList

/-- The search-result list `_resolve_hp_term_by_label` works from: the
non-partial search, falling back to the partial search when it is empty
(a raised search is an empty result). -/
def searchResults (a : Adapter) (lbl : String) : List String :=
  let r := match a.search false lbl with | some v => v | none => []
  if r.isEmpty then (match a.search true lbl with | some v => v | none => []) else r

/-- Python `(s or "").strip().lower()` over an optional label. -/
def normLabel (lab : Option String) : List Char :=
  (pyStrip (lab.getD "").toList).map asciiLower

/-- The exact-label scan of `_resolve_hp_term_by_label`: first HP term whose
label, normalized, equals the normalized query. -/
def resolveLoop (a : Adapter) (lc : List Char) :
    List String → Caches → Option String × Caches
  | [], c => (none, c)
  | t :: ts, c =>
    if normLabel (hpLabel a c t).1 == lc then (some t, (hpLabel a c t).2)
    else resolveLoop a lc ts (hpLabel a c t).2

/-- The helper `_resolve_hp_term_by_label`: search, keep HP-prefixed results, prefer an
exact (case-insensitive) label match, fall back to the first HP term. -/
def resolveHpTermByLabel (a : Adapter) (c : Caches) (lbl : String) :
    Option String × Caches :=
  match resolveLoop a ((pyStrip lbl.toList).map asciiLower)
      ((searchResults a lbl).filter hpStarts) c with
  | (some t, c') => (some t, c')
  | (none, c') =>
    match (searchResults a lbl).filter hpStarts with
    | t :: _ => (some t, c')
    | [] => (none, c')

/-- Substring test (Python `key in lab`). -/
def listContainsSub (needle hay : List Char) : Bool :=
  hay.tails.any (fun t => needle.isPrefixOf t)

/-- The child scan of `get_category_root`: first immediate child of the
category root whose normalized label is non-empty and equals or contains the
key; on a hit the key is cached and the result dict is built with a second
(now cached) `_hp_label` call. -/
def childLoop (a : Adapter) (key : List Char) :
    List String → Caches → Option (String × Option String) × Caches
  | [], c => (none, c)
  | cid :: rest, c =>
    if (!(normLabel (hpLabel a c cid).1).isEmpty)
        && ((normLabel (hpLabel a c cid).1) == key
            || listContainsSub key (normLabel (hpLabel a c cid).1)) then
      (some (cid, (hpLabel a
          { (hpLabel a c cid).2 with
            categoryC := (String.mk key, cid) :: (hpLabel a c cid).2.categoryC } cid).1),
        (hpLabel a
          { (hpLabel a c cid).2 with
            categoryC := (String.mk key, cid) :: (hpLabel a c cid).2.categoryC } cid).2)
    else childLoop a key rest (hpLabel a c cid).2

/-- The fallback scan of `get_category_root`: first immediate child of the
category root that is an ancestor of the searched term (or the term itself). -/
def ancLoop (a : Adapter) (key : List Char) (anc : List String) (term : String) :
    List String → Caches → Option (String × Option String) × Caches
  | [], c => (none, c)
  | cid :: rest, c =>
    if anc.contains cid || term == cid then
      (some (cid, (hpLabel a
          { c with categoryC := (String.mk key, cid) :: c.categoryC } cid).1),
        (hpLabel a
          { c with categoryC := (String.mk key, cid) :: c.categoryC } cid).2)
    else ancLoop a key anc term rest c

/-- The tool `get_category_root`: resolve a free-text category name to an immediate
child of `HP:0000118`, returning the `{id, label}` dict (`none` = the error
dict). -/
def getCategoryRoot (a : Adapter) (c : Caches) (categoryLabel : String) :
    Option (String × Option String) × Caches :=
  match alookup c.categoryC (String.mk ((pyStrip categoryLabel.toList).map asciiLower)) with
  | some cid => (some (cid, (hpLabel a c cid).1), (hpLabel a c cid).2)
  | none =>
    match childLoop a ((pyStrip categoryLabel.toList).map asciiLower)
        (hpChildren a c CATEGORY_ROOT).1 (hpChildren a c CATEGORY_ROOT).2 with
    | (some res, c2) => (some res, c2)
    | (none, c2) =>
      match resolveHpTermByLabel a c2 categoryLabel with
      | (some term, c3) =>
        ancLoop a ((pyStrip categoryLabel.toList).map asciiLower)
          (hpAncestors a c3 term).1 term (hpChildren a c CATEGORY_ROOT).1
          (hpAncestors a c3 term).2
      | (none, c3) => (none, c3)

/-- The tool `is_hpo_in_category`: resolve the category root, then test the term
against it (the term itself, else membership of the root in the term's
ancestor set).  An unresolved root or the empty id is `False`. -/
def is_hpo_in_category (a : Adapter) (c : Caches) (hpoId : String)
    (categoryLabel : String) : Bool × Caches :=
  match getCategoryRoot a c categoryLabel with
  | (none, c') => (false, c')
  | (some (cid, _), c') =>
    if cid = "" then (false, c')
    else if hpoId = cid then (true, c')
    else ((hpAncestors a c' hpoId).1.contains cid, (hpAncestors a c' hpoId).2)

/-- The resolution step of `filter_hpoa_by_hp`: the stripped query, replaced
by the label-search resolution when it is not an `HP:` CURIE (a `None` or
empty resolution keeps the stripped query), together with the caches after
resolution. -/
def hpQueryKey (a : Adapter) (c : Caches) (hp : String) : List Char × Caches :=
  if ("HP:".toList).isPrefixOf ((pyStrip hp.toList).map asciiUpper) then
    (pyStrip hp.toList, c)
  else
    match resolveHpTermByLabel a c (String.mk (pyStrip hp.toList)) with
    | (some s, c2) => if s = "" then (pyStrip hp.toList, c2) else (s.toList, c2)
    | (none, c2) => (pyStrip hp.toList, c2)

/-- The WHERE clause of `filter_hpoa_by_hp`: `UPPER(hpo_id) = UPPER(key)`. -/
def hpoIdMatches (key : List Char) (r : RawRow) : Bool :=
  match r.hpo_id with
  | some h => (h.toList.map asciiUpper) == (key.map asciiUpper)
  | none => false

/-- The tool `filter_hpoa_by_hp`: strip the query; when it is not an `HP:` CURIE,
try to resolve it as a label (an empty or failed resolution keeps the
original text); select rows with `UPPER(hpo_id) = UPPER(query)` and validate
each selected row. -/
def filter_hpoa_by_hp (a : Adapter) (c : Caches) (store : List RawRow)
    (hp : String) : List HPOA × Caches :=
  ((store.filter (hpoIdMatches (hpQueryKey a c hp).1)).filterMap validHPOA?,
    (hpQueryKey a c hp).2)

/-! ### Glob-free LIKE patterns are case-insensitive substring tests -/

/-- A pattern fragment without the LIKE wildcard characters `%` and `_`. -/
def noWild (w : List Char) : Bool := w.all (fun c => !(c == '%') && !(c == '_'))

theorem likeMatch_percent (ps cs : List Char) :
    likeMatch ('%' :: ps) cs = true ↔ ∃ t, t <:+ cs ∧ likeMatch ps t = true := by
  simp [likeMatch, List.any_eq_true, List.mem_tails]

theorem likeMatch_lit_star (w : List Char) (hw : noWild w = true) (t : List Char) :
    likeMatch (w ++ ['%']) t = true ↔
      ∃ pre, pre <+: t ∧ pre.map asciiLower = w.map asciiLower := by
  induction w generalizing t with
  | nil =>
    simp only [List.nil_append, List.map_nil]
    rw [likeMatch_percent]
    constructor
    · intro _
      exact ⟨[], List.nil_prefix, by simp⟩
    · intro _
      exact ⟨[], List.nil_suffix, by simp [likeMatch]⟩
  | cons c w ih =>
    simp only [noWild, List.all_cons, Bool.and_eq_true, beq_iff_eq, Bool.not_eq_true'] at hw
    have hc1 : c ≠ '%' := by
      intro h; rw [h] at hw; simp at hw
    have hc2 : c ≠ '_' := by
      intro h; rw [h] at hw; simp at hw
    have hw' : noWild w = true := by
      simp [noWild, List.all_eq_true]
      intro x hx
      have := hw.2
      simp [List.all_eq_true] at this
      exact this x hx
    cases t with
    | nil =>
      rw [List.cons_append]
      constructor
      · intro h
        rw [likeMatch, if_neg hc1] at h
        exact absurd h (by simp)
      · rintro ⟨pre, hpre, hmap⟩
        have : pre = [] := List.prefix_nil.mp hpre
        subst this
        simp at hmap
    | cons d t' =>
      rw [List.cons_append, likeMatch, if_neg hc1, if_neg hc2]
      constructor
      · intro h
        rw [Bool.and_eq_true] at h
        obtain ⟨pre, hpre, hmap⟩ := (ih hw' t').1 h.2
        refine ⟨d :: pre, List.cons_prefix_cons.mpr ⟨rfl, hpre⟩, ?_⟩
        simp only [List.map_cons, hmap]
        have := beq_iff_eq.mp h.1
        rw [this]
      · rintro ⟨pre, hpre, hmap⟩
        cases pre with
        | nil => simp at hmap
        | cons e pre' =>
          obtain ⟨he, hpre'⟩ := List.cons_prefix_cons.mp hpre
          subst he
          simp only [List.map_cons, List.cons.injEq] at hmap
          rw [Bool.and_eq_true]
          constructor
          · rw [beq_iff_eq, ← hmap.1]
          · exact (ih hw' t').2 ⟨pre', hpre', hmap.2⟩

/-- A `LIKE '%w%'` pattern with wildcard-free `w` holds exactly when `w` is a
case-insensitive (ASCII-folded) substring of the text. -/
theorem likeMatch_contains (w s : List Char) (hw : noWild w = true) :
    likeMatch ('%' :: (w ++ ['%'])) s = true ↔
      (w.map asciiLower) <:+: (s.map asciiLower) := by
  rw [likeMatch_percent]
  constructor
  · rintro ⟨t, hts, hm⟩
    obtain ⟨pre, hpre, hmap⟩ := (likeMatch_lit_star w hw t).1 hm
    have h1 : pre.map asciiLower <+: t.map asciiLower := hpre.map _
    rw [hmap] at h1
    exact h1.isInfix.trans (hts.map _).isInfix
  · intro hinf
    obtain ⟨u, v, huv⟩ := hinf
    refine ⟨s.drop u.length, List.drop_suffix _ _, ?_⟩
    apply (likeMatch_lit_star w hw _).2
    refine ⟨(s.drop u.length).take w.length, List.take_prefix _ _, ?_⟩
    have hd : (s.drop u.length).map asciiLower = (w.map asciiLower) ++ v := by
      rw [List.map_drop, ← huv, List.append_assoc, List.drop_left]
    calc ((s.drop u.length).take w.length).map asciiLower
        = ((s.drop u.length).map asciiLower).take w.length := by rw [List.map_take]
      _ = (w.map asciiLower ++ v).take w.length := by rw [hd]
      _ = w.map asciiLower := List.take_left' (by simp)

/-! ### Queries that are exactly a CURIE are found whole by the regex search -/

/-- The query shapes the spec calls an identifier query: exactly one of the
four database tags followed by a non-empty run of `[A-Z0-9_.-]` characters. -/
def isCurieForm (s : List Char) : Bool :=
  ["OMIM:", "ORPHA:", "MONDO:", "DECIPHER:"].any
    (fun p => (p.toList).isPrefixOf s && !((s.drop p.toList.length).isEmpty)
       && (s.drop p.toList.length).all isIdChar)

theorem matchCurieAt_self (p rest : List Char) (hne : rest ≠ [])
    (hall : rest.all isIdChar = true) :
    matchCurieAt p (p ++ rest) = some (p ++ rest) := by
  have h1 : p.isPrefixOf (p ++ rest) = true :=
    List.isPrefixOf_iff_prefix.mpr ⟨rest, rfl⟩
  have h2 : (p ++ rest).drop p.length = rest := List.drop_left _ _
  have h3 : rest.takeWhile isIdChar = rest :=
    List.takeWhile_eq_self_iff.mpr (fun x hx => (List.all_eq_true.mp hall) x hx)
  have h4 : rest.isEmpty = false := by
    cases rest with
    | nil => exact absurd rfl hne
    | cons a l => rfl
  simp [matchCurieAt, h1, h2, h3, h4]

theorem curieSearch_cons (c : Char) (cs : List Char) :
    curieSearch (c :: cs) =
      match matchAnyCurie (c :: cs) with
      | some m => some m
      | none => curieSearch cs := rfl

theorem curieSearch_self (s : List Char) (hne : s ≠ [])
    (hm : matchAnyCurie s = some s) : curieSearch s = some s := by
  cases s with
  | nil => exact absurd rfl hne
  | cons c cs => rw [curieSearch_cons, hm]

/-- On a query that is exactly a CURIE, the regex search finds the whole
query: deciding the identifier branch of `filter_hpoa` with the query itself
as key. -/
theorem curieSearch_of_isCurieForm (s : List Char) (h : isCurieForm s = true) :
    curieSearch s = some s := by
  simp only [isCurieForm, List.any_eq_true, Bool.and_eq_true, Bool.not_eq_true'] at h
  obtain ⟨p, hp, ⟨hpre, hne⟩, hall⟩ := h
  obtain ⟨t, ht⟩ := List.isPrefixOf_iff_prefix.mp hpre
  have hdrop : s.drop p.toList.length = t := by rw [← ht, List.drop_left]
  rw [hdrop] at hne hall
  have hne' : t ≠ [] := by
    intro h0; rw [h0] at hne; exact absurd hne (by simp)
  subst ht
  have hself : ∀ q : List Char, matchCurieAt q (q ++ t) = some (q ++ t) :=
    fun q => matchCurieAt_self q t hne' hall
  fin_cases hp
  · apply curieSearch_self _ (by simp)
    simp only [matchAnyCurie, hself]
  · apply curieSearch_self _ (by simp)
    have e1 : matchCurieAt "OMIM:".toList ("ORPHA:".toList ++ t) = none := rfl
    simp only [matchAnyCurie, e1, hself]
  · apply curieSearch_self _ (by simp)
    have e1 : matchCurieAt "OMIM:".toList ("MONDO:".toList ++ t) = none := rfl
    have e2 : matchCurieAt "ORPHA:".toList ("MONDO:".toList ++ t) = none := rfl
    simp only [matchAnyCurie, e1, e2, hself]
  · apply curieSearch_self _ (by simp)
    have e1 : matchCurieAt "OMIM:".toList ("DECIPHER:".toList ++ t) = none := rfl
    have e2 : matchCurieAt "ORPHA:".toList ("DECIPHER:".toList ++ t) = none := rfl
    have e3 : matchCurieAt "MONDO:".toList ("DECIPHER:".toList ++ t) = none := rfl
    simp only [matchAnyCurie, e1, e2, e3, hself]

/-! ### Membership characterizations of the store queries -/

/-- A validated row preserves the raw row's text fields. -/
theorem validHPOA?_fields (r : RawRow) (h : HPOA) (hv : validHPOA? r = some h) :
    r.database_id = some h.database_id ∧ r.disease_name = some h.disease_name ∧
    r.hpo_id = some h.hpo_id ∧ r.reference = some h.reference := by
  unfold validHPOA? at hv
  split at hv
  · split at hv
    · rename_i db dn hid ref ev asp bio heq hcond
      injection hv with hv
      subst hv
      simp_all
    · cases hv
  · cases hv

/-- Membership in a `filter_hpoa` result when the CURIE search succeeds:
exactly the valid rows whose normalized `database_id` equals the extracted
token. -/
theorem mem_filter_hpoa_id (store : List RawRow) (q : String) (qid : List Char)
    (hq : curieSearch (normalizeQuery q) = some qid) (hrow : HPOA) :
    hrow ∈ filter_hpoa store q ↔
      ∃ r ∈ store, validHPOA? r = some hrow ∧ rowNormId r = some qid := by
  unfold filter_hpoa
  unfold normalizeQuery at hq
  rw [hq]
  simp [List.mem_filterMap, List.mem_filter, dbIdMatches]
  constructor
  · rintro ⟨r, ⟨hr, hm⟩, hv⟩
    exact ⟨r, hr, hv, hm⟩
  · rintro ⟨r, hr, hv, hm⟩
    exact ⟨r, ⟨hr, hm⟩, hv⟩

/-- Membership in a `filter_hpoa` result when the CURIE search fails:
exactly the valid rows whose `disease_name` matches `LIKE '%query%'`. -/
theorem mem_filter_hpoa_label (store : List RawRow) (q : String)
    (hq : curieSearch (normalizeQuery q) = none) (hrow : HPOA) :
    hrow ∈ filter_hpoa store q ↔
      ∃ r ∈ store, validHPOA? r = some hrow ∧
        nameLikeMatches (pyStrip q.toList) r = true := by
  unfold filter_hpoa
  unfold normalizeQuery at hq
  rw [hq]
  simp [List.mem_filterMap, List.mem_filter]
  constructor
  · rintro ⟨r, ⟨hr, hm⟩, hv⟩
    exact ⟨r, hr, hv, hm⟩
  · rintro ⟨r, hr, hv, hm⟩
    exact ⟨r, ⟨hr, hm⟩, hv⟩

/-! ### Claim C1 — identifier queries are exact on normalized database_id -/

/-- Claim C1.  For every loaded dataset and every query that is a CURIE of the
form `(OMIM|ORPHA|MONDO|DECIPHER):<alnum/._->` (case-insensitive, whitespace
stripped — the code strips surrounding whitespace, upper-cases and removes
internal spaces), `filter_hpoa` returns exactly the rows whose `database_id`,
normalized identically (`UPPER(REPLACE(·,' ',''))`), equals the normalized
query: a returned row always comes from a store row with normalized id equal
to the query (no superstrings or other ids), and every store row with that
normalized id that passes row validation is returned. -/
theorem c1_filter_by_disease_id_exact (store : List RawRow) (q : String)
    (hc : isCurieForm (normalizeQuery q) = true) :
    (∀ hrow : HPOA, hrow ∈ filter_hpoa store q ↔
        ∃ r ∈ store, validHPOA? r = some hrow ∧
          rowNormId r = some (normalizeQuery q)) ∧
    (∀ r ∈ store, rowNormId r = some (normalizeQuery q) →
        (validHPOA? r).isSome →
        ∃ hrow, validHPOA? r = some hrow ∧ hrow ∈ filter_hpoa store q) := by
  have hq := curieSearch_of_isCurieForm _ hc
  constructor
  · exact mem_filter_hpoa_id store q _ hq
  · intro r hr hid hsome
    obtain ⟨hrow, hv⟩ := Option.isSome_iff_exists.mp hsome
    exact ⟨hrow, hv, (mem_filter_hpoa_id store q _ hq hrow).2 ⟨r, hr, hv, hid⟩⟩

def c1row1 : RawRow :=
  ⟨some "OMIM:123456", some "Foo syndrome", some "", some "HP:0000001",
   some "PMID:111", some "IEA", some "", some "", some "", some "", some "P",
   some "HPO:curator[2009-02-17]"⟩

def c1row2 : RawRow :=
  ⟨some "OMIM:1234567", some "Bar syndrome", some "", some "HP:0000002",
   some "PMID:222", some "TAS", some "", some "", some "", some "", some "P",
   some "HPO:curator[2009-02-17]"⟩

theorem c1_witness :
    isCurieForm (normalizeQuery "OMIM:123456") = true ∧
    ((∀ hrow : HPOA, hrow ∈ filter_hpoa [c1row1, c1row2] "OMIM:123456" ↔
        ∃ r ∈ [c1row1, c1row2], validHPOA? r = some hrow ∧
          rowNormId r = some (normalizeQuery "OMIM:123456")) ∧
      (∀ r ∈ [c1row1, c1row2],
        rowNormId r = some (normalizeQuery "OMIM:123456") →
        (validHPOA? r).isSome →
        ∃ hrow, validHPOA? r = some hrow ∧
          hrow ∈ filter_hpoa [c1row1, c1row2] "OMIM:123456")) :=
  ⟨by decide, c1_filter_by_disease_id_exact [c1row1, c1row2] "OMIM:123456" (by decide)⟩


/-! ### Claims C2 and C7 -- empty vs. error, and failed loads preserve the table -/

theorem loadText_error_preserves (e : FetchEnv) (db : Option (List RawRow)) (t : String) :
    ∀ err, (loadText e db t).1 = Except.error err → (loadText e db t).2 = db := by
  intro err h
  unfold loadText at h ⊢
  rcases hp : e.parse t with u | rs
  · rfl
  · simp [hp] at h

theorem loadText_ok_replaces (e : FetchEnv) (db : Option (List RawRow)) (t : String) :
    ∀ rows, (loadText e db t).1 = Except.ok rows → (loadText e db t).2 = some rows := by
  intro rows h
  unfold loadText at h ⊢
  rcases hp : e.parse t with u | rs
  · simp [hp] at h
  · simp [hp] at h
    simp [h]

theorem c7_failed_load_preserves_table (e : FetchEnv) (db : Option (List RawRow)) :
    (∀ err, (fetch_and_parse_hpoa e db).1 = Except.error err →
      (fetch_and_parse_hpoa e db).2 = db) ∧
    (∀ rows, (fetch_and_parse_hpoa e db).1 = Except.ok rows →
      (fetch_and_parse_hpoa e db).2 = some rows) := by
  unfold fetch_and_parse_hpoa
  rcases h1 : pathText e e.explicitPath with _ | t1
  · rcases h2 : pathText e e.envPath with _ | t2
    · rcases h3 : cachedText e with _ | t3
      · rcases h4 : e.download with _ | t4
        · constructor
          · intro err _; rfl
          · intro rows h; cases h
        · exact ⟨loadText_error_preserves e db t4, loadText_ok_replaces e db t4⟩
      · exact ⟨loadText_error_preserves e db t3, loadText_ok_replaces e db t3⟩
    · exact ⟨loadText_error_preserves e db t2, loadText_ok_replaces e db t2⟩
  · exact ⟨loadText_error_preserves e db t1, loadText_ok_replaces e db t1⟩

theorem c2_empty_vs_error :
    (∀ (store : List RawRow) (q : String),
      isCurieForm (normalizeQuery q) = true →
      (∀ r ∈ store, rowNormId r ≠ some (normalizeQuery q)) →
      filter_hpoa store q = []) ∧
    (∀ (e : FetchEnv) (db : Option (List RawRow)),
      pathText e e.explicitPath = none → pathText e e.envPath = none →
      cachedText e = none → e.download = none →
      fetch_and_parse_hpoa e db = (Except.error LoadError.dataUnavailable, db)) ∧
    (∀ (e : FetchEnv) (db : Option (List RawRow)) (p text : String),
      e.explicitPath = some p → p ≠ "" → e.fs p = some text →
      e.parse text = Except.error () →
      fetch_and_parse_hpoa e db = (Except.error LoadError.parseError, db)) := by
  refine ⟨?_, ?_, ?_⟩
  · intro store q hc hnone
    have hq := curieSearch_of_isCurieForm _ hc
    rw [List.eq_nil_iff_forall_not_mem]
    intro hrow hmem
    obtain ⟨r, hr, hv, hid⟩ := (mem_filter_hpoa_id store q _ hq hrow).1 hmem
    exact hnone r hr hid
  · intro e db h1 h2 h3 h4
    unfold fetch_and_parse_hpoa
    rw [h1, h2, h3, h4]
  · intro e db p text hp hpne hfs hparse
    have hpt : pathText e e.explicitPath = some text := by
      rw [hp]
      show (if p = "" then none else e.fs p) = some text
      rw [if_neg hpne, hfs]
    unfold fetch_and_parse_hpoa
    rw [hpt]
    show loadText e db text = (Except.error LoadError.parseError, db)
    unfold loadText
    rw [hparse]

def c2row : RawRow :=
  ⟨some "OMIM:301500", some "Fabry disease", some "", some "HP:0000001",
   some "PMID:111", some "IEA", some "", some "", some "", some "", some "P",
   some "HPO:curator[2009-02-17]"⟩

def c2envFail : FetchEnv :=
  ⟨none, none, none, fun _ => none, none, fun _ => Except.error ()⟩

def c2envParse : FetchEnv :=
  ⟨some "/data/phenotype.hpoa", none, none,
   fun p => if p = "/data/phenotype.hpoa" then some "no header" else none,
   none, fun _ => Except.error ()⟩

theorem c2_witness :
    (isCurieForm (normalizeQuery "OMIM:000000") = true ∧
      (∀ r ∈ [c2row], rowNormId r ≠ some (normalizeQuery "OMIM:000000")) ∧
      filter_hpoa [c2row] "OMIM:000000" = []) ∧
    (pathText c2envFail c2envFail.explicitPath = none ∧
      pathText c2envFail c2envFail.envPath = none ∧
      cachedText c2envFail = none ∧ c2envFail.download = none ∧
      fetch_and_parse_hpoa c2envFail (some [c2row]) =
        (Except.error LoadError.dataUnavailable, some [c2row])) ∧
    (c2envParse.explicitPath = some "/data/phenotype.hpoa" ∧
      c2envParse.fs "/data/phenotype.hpoa" = some "no header" ∧
      c2envParse.parse "no header" = Except.error () ∧
      fetch_and_parse_hpoa c2envParse none =
        (Except.error LoadError.parseError, none)) :=
  ⟨⟨by decide, by decide,
    c2_empty_vs_error.1 [c2row] "OMIM:000000" (by decide) (by decide)⟩,
   ⟨rfl, rfl, rfl, rfl,
    c2_empty_vs_error.2.1 c2envFail (some [c2row]) rfl rfl rfl rfl⟩,
   ⟨rfl, by simp [c2envParse], rfl,
    c2_empty_vs_error.2.2 c2envParse none "/data/phenotype.hpoa" "no header"
      rfl (by simp) (by simp [c2envParse]) rfl⟩⟩

def c7env : FetchEnv :=
  ⟨some "/data/phenotype.hpoa", none, none,
   fun p => if p = "/data/phenotype.hpoa" then some "garbled" else none,
   none, fun _ => Except.error ()⟩

def c7row : RawRow :=
  ⟨some "OMIM:111111", some "Old disease", some "", some "HP:0000010",
   some "PMID:9", some "PCS", some "", some "", some "", some "", some "P",
   some "HPO:curator[2010-01-01]"⟩

theorem c7_witness :
    (fetch_and_parse_hpoa c7env (some [c7row])).1 = Except.error LoadError.parseError ∧
    (fetch_and_parse_hpoa c7env (some [c7row])).2 = some [c7row] :=
  ⟨rfl, (c7_failed_load_preserves_table c7env (some [c7row])).1 LoadError.parseError rfl⟩


/-! ### Claim C3 -- PMID queries: prefix-insensitive, substring containment -/

def isDigitChar (c : Char) : Bool := 48 ≤ c.toNat && c.toNat ≤ 57

theorem isPyWs_of_digit (c : Char) (h : isDigitChar c = true) : isPyWs c = false := by
  simp only [isDigitChar, Bool.and_eq_true, decide_eq_true_eq] at h
  have h1 : (c == ' ') = false := by
    rw [beq_eq_false_iff_ne]; intro he; rw [he] at h; exact absurd h (by decide)
  have h2 : (c == '\t') = false := by
    rw [beq_eq_false_iff_ne]; intro he; rw [he] at h; exact absurd h (by decide)
  have h3 : (c == '\n') = false := by
    rw [beq_eq_false_iff_ne]; intro he; rw [he] at h; exact absurd h (by decide)
  have h4 : (c == '\r') = false := by
    rw [beq_eq_false_iff_ne]; intro he; rw [he] at h; exact absurd h (by decide)
  have h5 : (c.toNat == 11) = false := by
    rw [beq_eq_false_iff_ne]; omega
  have h6 : (c.toNat == 12) = false := by
    rw [beq_eq_false_iff_ne]; omega
  simp [isPyWs, h1, h2, h3, h4, h5, h6]

theorem dropWhile_of_no_ws (m : List Char) (hm : ∀ c ∈ m, isPyWs c = false) :
    m.dropWhile isPyWs = m := by
  cases m with
  | nil => rfl
  | cons a as => simp [List.dropWhile, hm a (by simp)]

theorem pyStrip_of_no_ws (l : List Char) (h : ∀ c ∈ l, isPyWs c = false) :
    pyStrip l = l := by
  unfold pyStrip
  rw [dropWhile_of_no_ws l h]
  rw [dropWhile_of_no_ws l.reverse (by intro c hc; exact h c (List.mem_reverse.mp hc))]
  exact List.reverse_reverse l

theorem removeAllPMID_cons (c : Char) (cs : List Char) (hc : c ≠ 'P') :
    removeAllPMID (c :: cs) = c :: removeAllPMID cs := by
  rw [removeAllPMID.eq_def]
  split
  · rename_i rest heq
    injection heq with h1 h2
    exact absurd h1 hc
  · rename_i c' cs' heq
    injection heq with h1 h2
    subst h1; subst h2
    rfl
  · rename_i heq
    cases heq

theorem removeAllPMID_of_digits (l : List Char) (h : ∀ c ∈ l, isDigitChar c = true) :
    removeAllPMID l = l := by
  induction l with
  | nil => rfl
  | cons c cs ih =>
    have hc : c ≠ 'P' := by
      intro he
      have := h c (by simp)
      rw [he] at this
      simp [isDigitChar] at this
    rw [removeAllPMID_cons c cs hc]
    rw [ih (fun x hx => h x (by simp [hx]))]

theorem noWildChar_of_digit (c : Char) (h : isDigitChar c = true) :
    (!(c == '%') && !(c == '_')) = true := by
  simp only [isDigitChar, Bool.and_eq_true, decide_eq_true_eq] at h
  have h1 : (c == '%') = false := by
    rw [beq_eq_false_iff_ne]; intro he; rw [he] at h; exact absurd h (by decide)
  have h2 : (c == '_') = false := by
    rw [beq_eq_false_iff_ne]; intro he; rw [he] at h; exact absurd h (by decide)
  rw [h1, h2]
  rfl

theorem removeAllPMID_pmid (rest : List Char) :
    removeAllPMID ('P' :: 'M' :: 'I' :: 'D' :: ':' :: rest) = removeAllPMID rest := rfl

theorem pid_of_digits (d : String) (hd : ∀ c ∈ d.toList, isDigitChar c = true) :
    pyStrip (removeAllPMID (pyStrip d.toList)) = d.toList := by
  have hnws : ∀ c ∈ d.toList, isPyWs c = false :=
    fun c hc => isPyWs_of_digit c (hd c hc)
  rw [pyStrip_of_no_ws _ hnws, removeAllPMID_of_digits _ hd, pyStrip_of_no_ws _ hnws]

theorem pid_of_pmid_digits (d : String) (hd : ∀ c ∈ d.toList, isDigitChar c = true) :
    pyStrip (removeAllPMID (pyStrip ("PMID:" ++ d).toList)) = d.toList := by
  have hl : ("PMID:" ++ d).toList = 'P' :: 'M' :: 'I' :: 'D' :: ':' :: d.toList := by
    show ("PMID:" ++ d).data = _
    rw [String.data_append]
    rfl
  have hnws : ∀ c ∈ ("PMID:" ++ d).toList, isPyWs c = false := by
    rw [hl]
    intro c hc
    simp at hc
    rcases hc with h | h | h | h | h | h
    · rw [h]; rfl
    · rw [h]; rfl
    · rw [h]; rfl
    · rw [h]; rfl
    · rw [h]; rfl
    · exact isPyWs_of_digit c (hd c h)
  rw [pyStrip_of_no_ws _ hnws, hl, removeAllPMID_pmid,
    removeAllPMID_of_digits _ hd,
    pyStrip_of_no_ws _ (fun c hc => isPyWs_of_digit c (hd c hc))]

/-- Claim C3.  For every loaded dataset and every digit string `d`,
`filter_hpoa_by_pmid ("PMID:" ++ d)` and `filter_hpoa_by_pmid d` return the
same result; that result contains exactly the valid rows whose `reference`
contains the substring `PMID:d` compared case-insensitively (the digits are
case-invariant, so case-insensitivity on the `PMID:` prefix and on the whole
needle coincide). -/
theorem c3_filter_by_pmid (store : List RawRow) (d : String)
    (hd : ∀ c ∈ d.toList, isDigitChar c = true) :
    filter_hpoa_by_pmid store ("PMID:" ++ d) = filter_hpoa_by_pmid store d
    ∧ (∀ hrow : HPOA, hrow ∈ filter_hpoa_by_pmid store d ↔
        ∃ r ∈ store, validHPOA? r = some hrow ∧ ∃ ref, r.reference = some ref ∧
          (("PMID:" ++ d).toList.map asciiLower) <:+: (ref.toList.map asciiLower)) := by
  have hw : noWild ("PMID:".toList ++ d.toList) = true := by
    unfold noWild
    rw [List.all_append]
    have h1 : ("PMID:".toList).all (fun c => !(c == '%') && !(c == '_')) = true := by decide
    have h2 : (d.toList).all (fun c => !(c == '%') && !(c == '_')) = true := by
      rw [List.all_eq_true]
      exact fun c hc => noWildChar_of_digit c (hd c hc)
    rw [h1, h2]
    rfl
  have hlapp : ("PMID:" ++ d).toList = "PMID:".toList ++ d.toList := by
    show ("PMID:" ++ d).data = _
    rw [String.data_append]
    rfl
  have hchar : ∀ (pid : List Char), pid = d.toList → ∀ r : RawRow,
      refLikeMatches pid r = true ↔
        ∃ ref, r.reference = some ref ∧
          (("PMID:" ++ d).toList.map asciiLower) <:+: (ref.toList.map asciiLower) := by
    intro pid hpid r
    subst hpid
    unfold refLikeMatches
    cases href : r.reference with
    | none =>
      constructor
      · intro h; cases h
      · rintro ⟨ref, hr, _⟩; cases hr
    | some ref =>
      have hshape : ("PMID:".toList ++ d.toList ++ ['%'])
          = (("PMID:".toList ++ d.toList) ++ ['%']) := by
        rw [List.append_assoc]
      rw [hshape]
      rw [likeMatch_contains _ _ hw]
      have hfold : ((ref.toList.map asciiUpper).map asciiLower) = ref.toList.map asciiLower := by
        rw [List.map_map]
        exact List.map_congr_left (fun c _ => asciiLower_asciiUpper c)
      rw [hfold, hlapp]
      constructor
      · intro h; exact ⟨ref, rfl, h⟩
      · rintro ⟨ref', hr, h⟩
        injection hr with hr
        rw [hr]
        exact h
  constructor
  · unfold filter_hpoa_by_pmid
    rw [pid_of_pmid_digits d hd, pid_of_digits d hd]
  · intro hrow
    unfold filter_hpoa_by_pmid
    rw [pid_of_digits d hd]
    simp only [List.mem_filterMap, List.mem_filter]
    constructor
    · rintro ⟨r, ⟨hr, hm⟩, hv⟩
      exact ⟨r, hr, hv, (hchar d.toList rfl r).1 hm⟩
    · rintro ⟨r, hr, hv, hre⟩
      exact ⟨r, ⟨hr, (hchar d.toList rfl r).2 hre⟩, hv⟩

def c3row1 : RawRow :=
  ⟨some "OMIM:154700", some "Marfan syndrome", some "", some "HP:0001166",
   some "PMID:222;pmid:111", some "PCS", some "", some "", some "", some "",
   some "P", some "HPO:curator[2011-03-01]"⟩

def c3row2 : RawRow :=
  ⟨some "OMIM:154700", some "Marfan syndrome", some "", some "HP:0001519",
   some "OMIM:154700", some "TAS", some "", some "", some "", some "",
   some "P", some "HPO:curator[2011-03-01]"⟩

theorem c3_witness :
    (∀ c ∈ "111".toList, isDigitChar c = true) ∧
    (filter_hpoa_by_pmid [c3row1, c3row2] ("PMID:" ++ "111")
        = filter_hpoa_by_pmid [c3row1, c3row2] "111"
      ∧ (∀ hrow : HPOA, hrow ∈ filter_hpoa_by_pmid [c3row1, c3row2] "111" ↔
          ∃ r ∈ [c3row1, c3row2], validHPOA? r = some hrow ∧
            ∃ ref, r.reference = some ref ∧
              (("PMID:" ++ "111").toList.map asciiLower) <:+:
                (ref.toList.map asciiLower))) :=
  ⟨by decide, c3_filter_by_pmid [c3row1, c3row2] "111" (by decide)⟩


/-! ### Claims C5, C9, C6 -- label queries, embedded CURIEs, invalid rows -/

def c5row : RawRow :=
  ⟨some "OMIM:600000", some "abc", some "", some "HP:0000002", some "PMID:5",
   some "IEA", some "", some "", some "", some "", some "P", some "b"⟩

def c5hpoa : HPOA :=
  ⟨"OMIM:600000", "abc", some "", "HP:0000002", "PMID:5", "IEA", some "",
   some "", some "", some "", "P", "b"⟩

/-- Claim C5, counterexample.  The claim fails as stated: the label branch is a
SQL `LIKE '%query%'`, whose `_` wildcard matches any single character, so the
query `"a_c"` (which contains no CURIE) returns the row named `"abc"` even
though `"abc"` does not contain `"a_c"` as a (case-insensitive) substring. -/
theorem c5_counterexample :
    curieSearch (normalizeQuery "a_c") = none ∧
    ¬ (("a_c".toList.map asciiLower) <:+: ("abc".toList.map asciiLower)) ∧
    filter_hpoa [c5row] "a_c" = [c5hpoa] := ⟨by decide, by decide, by decide⟩

/-- Claim C5, amended.  For every query containing no CURIE *and containing no
SQL LIKE wildcard (`%`, `_`)*, `filter_hpoa` returns exactly the valid rows
whose `disease_name` contains the (stripped) query as a case-insensitive
substring — both directions.  Queries with wildcards are interpreted under
LIKE semantics instead, which can return additional rows. -/
theorem c5_label_contains_amended (store : List RawRow) (q : String)
    (hnc : curieSearch (normalizeQuery q) = none)
    (hw : noWild (pyStrip q.toList) = true) :
    (∀ hrow : HPOA, hrow ∈ filter_hpoa store q ↔
        ∃ r ∈ store, validHPOA? r = some hrow ∧ ∃ dn, r.disease_name = some dn ∧
          ((pyStrip q.toList).map asciiLower) <:+: (dn.toList.map asciiLower)) ∧
    (∀ r ∈ store, ∀ dn, r.disease_name = some dn →
        ((pyStrip q.toList).map asciiLower) <:+: (dn.toList.map asciiLower) →
        (validHPOA? r).isSome →
        ∃ hrow, validHPOA? r = some hrow ∧ hrow ∈ filter_hpoa store q) := by
  have hchar : ∀ r : RawRow, nameLikeMatches (pyStrip q.toList) r = true ↔
      ∃ dn, r.disease_name = some dn ∧
        ((pyStrip q.toList).map asciiLower) <:+: (dn.toList.map asciiLower) := by
    intro r
    unfold nameLikeMatches
    cases hdn : r.disease_name with
    | none =>
      constructor
      · intro h; cases h
      · rintro ⟨dn, h, _⟩; cases h
    | some dn =>
      rw [likeMatch_contains _ _ hw]
      constructor
      · intro h; exact ⟨dn, rfl, h⟩
      · rintro ⟨dn', h1, h2⟩
        injection h1 with h1
        rw [h1]
        exact h2
  constructor
  · intro hrow
    rw [mem_filter_hpoa_label store q hnc hrow]
    constructor
    · rintro ⟨r, hr, hv, hm⟩
      exact ⟨r, hr, hv, (hchar r).1 hm⟩
    · rintro ⟨r, hr, hv, hm⟩
      exact ⟨r, hr, hv, (hchar r).2 hm⟩
  · intro r hr dn hdn hin hsome
    obtain ⟨hrow, hv⟩ := Option.isSome_iff_exists.mp hsome
    exact ⟨hrow, hv,
      (mem_filter_hpoa_label store q hnc hrow).2 ⟨r, hr, hv, (hchar r).2 ⟨dn, hdn, hin⟩⟩⟩

def c5wrow1 : RawRow :=
  ⟨some "OMIM:100100", some "Foo syndrome", some "", some "HP:0000005",
   some "PMID:1", some "IEA", some "", some "", some "", some "", some "P", some "b"⟩

def c5wrow2 : RawRow :=
  ⟨some "OMIM:100200", some "BarFooBaz", some "", some "HP:0000006",
   some "PMID:2", some "TAS", some "", some "", some "", some "", some "P", some "b"⟩

def c5wrow3 : RawRow :=
  ⟨some "OMIM:100300", some "X syndrome", some "", some "HP:0000007",
   some "PMID:3", some "PCS", some "", some "", some "", some "", some "P", some "b"⟩

theorem c5_witness :
    curieSearch (normalizeQuery "foo") = none ∧
    noWild (pyStrip "foo".toList) = true ∧
    ((∀ hrow : HPOA, hrow ∈ filter_hpoa [c5wrow1, c5wrow2, c5wrow3] "foo" ↔
        ∃ r ∈ [c5wrow1, c5wrow2, c5wrow3], validHPOA? r = some hrow ∧
          ∃ dn, r.disease_name = some dn ∧
            ((pyStrip "foo".toList).map asciiLower) <:+: (dn.toList.map asciiLower)) ∧
      (∀ r ∈ [c5wrow1, c5wrow2, c5wrow3], ∀ dn, r.disease_name = some dn →
        ((pyStrip "foo".toList).map asciiLower) <:+: (dn.toList.map asciiLower) →
        (validHPOA? r).isSome →
        ∃ hrow, validHPOA? r = some hrow ∧
          hrow ∈ filter_hpoa [c5wrow1, c5wrow2, c5wrow3] "foo")) :=
  ⟨by decide, by decide,
    c5_label_contains_amended [c5wrow1, c5wrow2, c5wrow3] "foo" (by decide) (by decide)⟩

def c9row : RawRow :=
  ⟨some "OMIM:301500", some "Fabry disease", some "", some "HP:0000001",
   some "PMID:111", some "IEA", some "", some "", some "", some "", some "P",
   some "HPO:curator[2009-02-17]"⟩

def c9hpoa : HPOA :=
  ⟨"OMIM:301500", "Fabry disease", some "", "HP:0000001", "PMID:111", "IEA",
   some "", some "", some "", some "", "P", "HPO:curator[2009-02-17]"⟩

/-- Claim C9, counterexample.  The claim fails as stated: for
`"Fabry OMIM:301500 details"` the code removes spaces *before* the regex
search, so the extracted token is `OMIM:301500DETAILS` — the trailing word is
absorbed into the identifier rather than ignored, and the query returns
nothing although the store holds the row `OMIM:301500` (which the same store
returns for the plain query `"OMIM:301500"`). -/
theorem c9_counterexample :
    curieSearch (normalizeQuery "Fabry OMIM:301500 details")
      = some "OMIM:301500DETAILS".toList ∧
    filter_hpoa [c9row] "Fabry OMIM:301500 details" = [] ∧
    filter_hpoa [c9row] "OMIM:301500" = [c9hpoa] :=
  ⟨by decide, by decide, by decide⟩

/-- Claim C9, amended.  Whenever the CURIE pattern is found in the upper-cased,
space-removed query, `filter_hpoa` takes the identifier path (the
label-substring path is never consulted), keyed on the leftmost, greedily
extended regex match — a token that may absorb identifier-class characters
adjacent after space removal, so surrounding text is not always ignored. -/
theorem c9_id_branch_amended (store : List RawRow) (q : String) (m : List Char)
    (h : curieSearch (normalizeQuery q) = some m) :
    (filter_hpoa store q = (store.filter (dbIdMatches m)).filterMap validHPOA?) ∧
    (∀ hrow : HPOA, hrow ∈ filter_hpoa store q ↔
        ∃ r ∈ store, validHPOA? r = some hrow ∧ rowNormId r = some m) := by
  constructor
  · unfold filter_hpoa
    unfold normalizeQuery at h
    rw [h]
  · exact mem_filter_hpoa_id store q m h

theorem c9_witness :
    curieSearch (normalizeQuery "Fabry OMIM:301500 details")
      = some "OMIM:301500DETAILS".toList ∧
    ((filter_hpoa [c9row] "Fabry OMIM:301500 details"
        = ([c9row].filter (dbIdMatches "OMIM:301500DETAILS".toList)).filterMap validHPOA?) ∧
      (∀ hrow : HPOA, hrow ∈ filter_hpoa [c9row] "Fabry OMIM:301500 details" ↔
        ∃ r ∈ [c9row], validHPOA? r = some hrow ∧
          rowNormId r = some "OMIM:301500DETAILS".toList)) :=
  ⟨by decide,
    c9_id_branch_amended [c9row] "Fabry OMIM:301500 details"
      "OMIM:301500DETAILS".toList (by decide)⟩

/-- Claim C6.  A store row that fails `HPOA` schema validation is dropped from
every query result without aborting the query: deleting it from the store
changes nothing, and all remaining valid matching rows are still returned
(the `print` log emitted when a row is skipped is a side effect outside the
returned value and is not modelled). -/
theorem c6_invalid_rows_skipped (pre post : List RawRow) (bad : RawRow)
    (q pm : String) (hbad : validHPOA? bad = none) :
    filter_hpoa (pre ++ bad :: post) q = filter_hpoa (pre ++ post) q
    ∧ filter_hpoa_by_pmid (pre ++ bad :: post) pm = filter_hpoa_by_pmid (pre ++ post) pm
    ∧ (∀ hrow ∈ filter_hpoa (pre ++ post) q, ∃ r ∈ pre ++ post, validHPOA? r = some hrow) := by
  have key : ∀ (p : RawRow → Bool),
      ((pre ++ bad :: post).filter p).filterMap validHPOA?
        = ((pre ++ post).filter p).filterMap validHPOA? := by
    intro p
    rw [List.filter_append, List.filter_append, List.filterMap_append, List.filterMap_append]
    congr 1
    cases hp : p bad with
    | false =>
      rw [List.filter_cons_of_neg (by simp [hp])]
    | true =>
      rw [List.filter_cons_of_pos (by simp [hp])]
      rw [List.filterMap_cons_none hbad]
  have h3 : ∀ (rows : List RawRow) (hrow : HPOA),
      hrow ∈ rows.filterMap validHPOA? → ∃ r ∈ rows, validHPOA? r = some hrow := by
    intro rows hrow hm
    simp only [List.mem_filterMap] at hm
    exact hm
  refine ⟨?_, ?_, ?_⟩
  · unfold filter_hpoa
    rcases hcs : curieSearch (upperNoSpace (pyStrip q.toList)) with _ | qid
    · exact key (nameLikeMatches (pyStrip q.toList))
    · exact key (dbIdMatches qid)
  · unfold filter_hpoa_by_pmid
    exact key _
  · intro hrow hmem
    unfold filter_hpoa at hmem
    rcases hcs : curieSearch (upperNoSpace (pyStrip q.toList)) with _ | qid <;>
      rw [hcs] at hmem
    · obtain ⟨r, hr, hv⟩ := h3 _ hrow hmem
      exact ⟨r, (List.mem_filter.mp hr).1, hv⟩
    · obtain ⟨r, hr, hv⟩ := h3 _ hrow hmem
      exact ⟨r, (List.mem_filter.mp hr).1, hv⟩

def c6bad : RawRow :=
  ⟨some "OMIM:100100", some "Foo syndrome", some "MAYBE", some "HP:0000005",
   some "PMID:1", some "XXX", some "", some "", some "", some "", some "Q", some "b"⟩

def c6good : RawRow :=
  ⟨some "OMIM:100100", some "Foo syndrome", some "", some "HP:0000005",
   some "PMID:1", some "IEA", some "", some "", some "", some "", some "P", some "b"⟩

def c6good2 : RawRow :=
  ⟨some "OMIM:100100", some "Foo syndrome", some "NOT", some "HP:0000009",
   some "PMID:4", some "TAS", some "", some "", some "", some "", some "P", some "b"⟩

theorem c6_witness :
    validHPOA? c6bad = none ∧
    (filter_hpoa [c6good, c6bad, c6good2] "Foo" = filter_hpoa [c6good, c6good2] "Foo"
      ∧ filter_hpoa_by_pmid [c6good, c6bad, c6good2] "PMID:1"
          = filter_hpoa_by_pmid [c6good, c6good2] "PMID:1"
      ∧ (∀ hrow ∈ filter_hpoa [c6good, c6good2] "Foo",
          ∃ r ∈ [c6good, c6good2], validHPOA? r = some hrow)) :=
  ⟨by decide, c6_invalid_rows_skipped [c6good] [c6good2] c6bad "Foo" "PMID:1" (by decide)⟩


/-! ### Claim C4 -- phenotype queries: exact id match, soft label misses -/

theorem asciiUpper_of_digit (ch : Char) (h : isDigitChar ch = true) :
    asciiUpper ch = ch := by
  simp only [isDigitChar, Bool.and_eq_true, decide_eq_true_eq] at h
  unfold asciiUpper
  rw [if_neg (by omega)]

/-- Claim C4.  Called with an `HP:nnnnnnn` identifier, `filter_hpoa_by_hp`
returns only rows whose `hpo_id`, case-normalized, equals that identifier;
called with a free-text label that the adapter's label search cannot resolve
to any HP term (no `HP:`-prefixed search result), it returns the empty
sequence — given the data-model invariant that every stored `hpo_id` is an
`HP:` CURIE — rather than failing. -/
theorem c4_filter_by_hp (a : Adapter) (c : Caches) (store : List RawRow) :
    (∀ ds : String, (∀ ch ∈ ds.toList, isDigitChar ch = true) →
      ∀ hrow ∈ (filter_hpoa_by_hp a c store ("HP:" ++ ds)).1,
        hrow.hpo_id.toList.map asciiUpper = ("HP:" ++ ds).toList) ∧
    (∀ lbl : String,
      ("HP:".toList).isPrefixOf ((pyStrip lbl.toList).map asciiUpper) = false →
      (∀ t ∈ searchResults a (String.mk (pyStrip lbl.toList)), hpStarts t = false) →
      (∀ r ∈ store, ∀ s, r.hpo_id = some s →
        ("HP:".toList).isPrefixOf (s.toList.map asciiUpper) = true) →
      (filter_hpoa_by_hp a c store lbl).1 = []) := by
  constructor
  · intro ds hds hrow hmem
    have hql : ("HP:" ++ ds).toList = 'H' :: 'P' :: ':' :: ds.toList := by
      show ("HP:" ++ ds).data = _
      rw [String.data_append]
      rfl
    have hstrip : pyStrip ("HP:" ++ ds).toList = ("HP:" ++ ds).toList := by
      apply pyStrip_of_no_ws
      rw [hql]
      intro ch hc
      simp at hc
      rcases hc with h | h | h | h
      · rw [h]; rfl
      · rw [h]; rfl
      · rw [h]; rfl
      · exact isPyWs_of_digit ch (hds ch h)
    have hupper : (("HP:" ++ ds).toList).map asciiUpper = ("HP:" ++ ds).toList := by
      rw [hql]
      simp only [List.map_cons]
      have hH : asciiUpper 'H' = 'H' := rfl
      have hP : asciiUpper 'P' = 'P' := rfl
      have hCo : asciiUpper ':' = ':' := rfl
      rw [hH, hP, hCo]
      have : ds.toList.map asciiUpper = ds.toList := by
        calc ds.toList.map asciiUpper = ds.toList.map id :=
              List.map_congr_left (fun x hx => asciiUpper_of_digit x (hds x hx))
          _ = ds.toList := List.map_id _
      rw [this]
    have hpre : ("HP:".toList).isPrefixOf
        ((pyStrip ("HP:" ++ ds).toList).map asciiUpper) = true := by
      rw [hstrip, hupper, hql]
      have hhp : "HP:".toList = ['H', 'P', ':'] := by decide
      rw [hhp]
      simp [List.isPrefixOf]
    have hkey : hpQueryKey a c ("HP:" ++ ds) = (pyStrip ("HP:" ++ ds).toList, c) := by
      unfold hpQueryKey
      rw [if_pos hpre]
    unfold filter_hpoa_by_hp at hmem
    rw [hkey] at hmem
    simp only [List.mem_filterMap, List.mem_filter] at hmem
    obtain ⟨r, ⟨hr, hm⟩, hv⟩ := hmem
    unfold hpoIdMatches at hm
    rcases hid : r.hpo_id with _ | s
    · rw [hid] at hm; cases hm
    · rw [hid] at hm
      have heq : s.toList.map asciiUpper
          = (pyStrip ("HP:" ++ ds).toList).map asciiUpper := beq_iff_eq.mp hm
      have hfields := (validHPOA?_fields r hrow hv).2.2.1
      rw [hid] at hfields
      injection hfields with hfields
      rw [← hfields, heq, hstrip, hupper]
  · intro lbl hno hsr hrows
    have hterms : (searchResults a (String.mk (pyStrip lbl.toList))).filter hpStarts = [] := by
      rw [List.filter_eq_nil_iff]
      intro t ht
      simp [hsr t ht]
    have hres : resolveHpTermByLabel a c (String.mk (pyStrip lbl.toList)) = (none, c) := by
      unfold resolveHpTermByLabel
      rw [hterms]
      rfl
    have hkey : hpQueryKey a c lbl = (pyStrip lbl.toList, c) := by
      unfold hpQueryKey
      rw [hno]
      simp only [Bool.false_eq_true, if_false]
      rw [hres]
    have hfilter : store.filter (hpoIdMatches (pyStrip lbl.toList)) = [] := by
      rw [List.filter_eq_nil_iff]
      intro r hr
      unfold hpoIdMatches
      rcases hid : r.hpo_id with _ | s
      · simp
      · intro hmc
        have heq : s.toList.map asciiUpper = (pyStrip lbl.toList).map asciiUpper :=
          beq_iff_eq.mp hmc
        have hpre := hrows r hr s hid
        obtain ⟨t2, ht2⟩ := List.isPrefixOf_iff_prefix.mp hpre
        have hcontra : ("HP:".toList).isPrefixOf
            ((pyStrip lbl.toList).map asciiUpper) = true := by
          apply List.isPrefixOf_iff_prefix.mpr
          rw [← heq]
          exact ⟨t2, ht2⟩
        rw [hno] at hcontra
        cases hcontra
    show (store.filter (hpoIdMatches (hpQueryKey a c lbl).1)).filterMap validHPOA? = []
    rw [hkey]
    rw [hfilter]
    rfl

def c4ad : Adapter :=
  ⟨fun _ => none, fun _ => some [], fun _ => some [], fun _ => some [],
   fun _ _ => some ["MONDO:0000001"]⟩

def c4row : RawRow :=
  ⟨some "OMIM:301500", some "Fabry disease", some "", some "HP:0001250",
   some "PMID:111", some "IEA", some "", some "", some "", some "", some "P",
   some "HPO:curator[2009-02-17]"⟩

theorem c4_witness :
    ((∀ ch ∈ "0001250".toList, isDigitChar ch = true) ∧
      (∀ hrow ∈ (filter_hpoa_by_hp c4ad emptyCaches [c4row] ("HP:" ++ "0001250")).1,
        hrow.hpo_id.toList.map asciiUpper = ("HP:" ++ "0001250").toList)) ∧
    (("HP:".toList).isPrefixOf ((pyStrip "unknown label".toList).map asciiUpper) = false ∧
      (∀ t ∈ searchResults c4ad (String.mk (pyStrip "unknown label".toList)),
        hpStarts t = false) ∧
      (∀ r ∈ [c4row], ∀ s, r.hpo_id = some s →
        ("HP:".toList).isPrefixOf (s.toList.map asciiUpper) = true) ∧
      (filter_hpoa_by_hp c4ad emptyCaches [c4row] "unknown label").1 = []) :=
  ⟨⟨by decide, (c4_filter_by_hp c4ad emptyCaches [c4row]).1 "0001250" (by decide)⟩,
   by decide, by decide, by decide,
   (c4_filter_by_hp c4ad emptyCaches [c4row]).2 "unknown label"
     (by decide) (by decide) (by decide)⟩


/-! ### Claim C10 -- process-lifetime memoization of adapter calls -/

theorem alookup_cons {α : Type} (k : String) (v : α) (rest : List (String × α)) (key : String) :
    alookup ((k, v) :: rest) key = if k = key then some v else alookup rest key := rfl

theorem alookup_insert_self {α : Type} (l : List (String × α)) (k : String) (v : α) :
    alookup ((k, v) :: l) k = some v := by simp [alookup]

theorem alookup_insert_preserve {α : Type} (l : List (String × α)) (k k' : String)
    (v v' : α) (hk : alookup l k = none) (h : alookup l k' = some v') :
    alookup ((k, v) :: l) k' = some v' := by
  rw [alookup_cons]
  by_cases he : k = k'
  · subst he; rw [hk] at h; cases h
  · rw [if_neg he]; exact h

/-- Claim C10.  The four memoized adapter wrappers are process-lifetime caches:
after a first call for an id, a repeated call for the same id returns exactly
the first result and leaves the caches unchanged, for an arbitrary (even
different) adapter — i.e. without consulting the adapter again; a first call
whose underlying adapter call raised caches and returns the `None`/empty
fallback, which the same conjuncts show is then returned forever; each
wrapper preserves every existing entry of its own dictionary and leaves the
other dictionaries untouched, so interleaved calls for other ids never
invalidate a cached result. -/
theorem c10_process_lifetime_caches :
    (∀ (a a' : Adapter) (c : Caches) (k : String),
        hpLabel a' (hpLabel a c k).2 k = hpLabel a c k) ∧
    (∀ (a a' : Adapter) (c : Caches) (k : String),
        hpAncestors a' (hpAncestors a c k).2 k = hpAncestors a c k) ∧
    (∀ (a a' : Adapter) (c : Caches) (k : String),
        hpOutgoing a' (hpOutgoing a c k).2 k = hpOutgoing a c k) ∧
    (∀ (a a' : Adapter) (c : Caches) (k : String),
        hpChildren a' (hpChildren a c k).2 k = hpChildren a c k) ∧
    (∀ (a : Adapter) (c : Caches) (k : String),
        a.label k = none → alookup c.labelC k = none → (hpLabel a c k).1 = none) ∧
    (∀ (a : Adapter) (c : Caches) (k : String),
        a.ancestors k = none → alookup c.ancestorsC k = none → (hpAncestors a c k).1 = []) ∧
    (∀ (a : Adapter) (c : Caches) (k : String),
        a.outgoing k = none → alookup c.outgoingC k = none → (hpOutgoing a c k).1 = []) ∧
    (∀ (a : Adapter) (c : Caches) (k : String),
        a.children k = none → alookup c.childrenC k = none → (hpChildren a c k).1 = []) ∧
    (∀ (a : Adapter) (c : Caches) (k k' : String) (v : Option String),
        alookup c.labelC k' = some v → alookup (hpLabel a c k).2.labelC k' = some v) ∧
    (∀ (a : Adapter) (c : Caches) (k k' : String) (v : List String),
        alookup c.ancestorsC k' = some v → alookup (hpAncestors a c k).2.ancestorsC k' = some v) ∧
    (∀ (a : Adapter) (c : Caches) (k k' : String) (v : List (String × String)),
        alookup c.outgoingC k' = some v → alookup (hpOutgoing a c k).2.outgoingC k' = some v) ∧
    (∀ (a : Adapter) (c : Caches) (k k' : String) (v : List String),
        alookup c.childrenC k' = some v → alookup (hpChildren a c k).2.childrenC k' = some v) ∧
    (∀ (a : Adapter) (c : Caches) (k : String),
        (hpLabel a c k).2.ancestorsC = c.ancestorsC ∧
        (hpLabel a c k).2.outgoingC = c.outgoingC ∧
        (hpLabel a c k).2.childrenC = c.childrenC ∧
        (hpLabel a c k).2.categoryC = c.categoryC) ∧
    (∀ (a : Adapter) (c : Caches) (k : String),
        (hpAncestors a c k).2.labelC = c.labelC ∧
        (hpAncestors a c k).2.outgoingC = c.outgoingC ∧
        (hpAncestors a c k).2.childrenC = c.childrenC ∧
        (hpAncestors a c k).2.categoryC = c.categoryC) ∧
    (∀ (a : Adapter) (c : Caches) (k : String),
        (hpOutgoing a c k).2.labelC = c.labelC ∧
        (hpOutgoing a c k).2.ancestorsC = c.ancestorsC ∧
        (hpOutgoing a c k).2.childrenC = c.childrenC ∧
        (hpOutgoing a c k).2.categoryC = c.categoryC) ∧
    (∀ (a : Adapter) (c : Caches) (k : String),
        (hpChildren a c k).2.labelC = c.labelC ∧
        (hpChildren a c k).2.ancestorsC = c.ancestorsC ∧
        (hpChildren a c k).2.outgoingC = c.outgoingC ∧
        (hpChildren a c k).2.categoryC = c.categoryC) := by
  refine ⟨?_, ?_, ?_, ?_, ?_, ?_, ?_, ?_, ?_, ?_, ?_, ?_, ?_, ?_, ?_, ?_⟩
  · intro a a' c k
    rcases hl : alookup c.labelC k with _ | v
    · simp [hpLabel, hl, alookup_insert_self]
    · simp [hpLabel, hl]
  · intro a a' c k
    rcases hl : alookup c.ancestorsC k with _ | v
    · simp [hpAncestors, hl, alookup_insert_self]
    · simp [hpAncestors, hl]
  · intro a a' c k
    rcases hl : alookup c.outgoingC k with _ | v
    · simp [hpOutgoing, hl, alookup_insert_self]
    · simp [hpOutgoing, hl]
  · intro a a' c k
    rcases hl : alookup c.childrenC k with _ | v
    · simp [hpChildren, hl, alookup_insert_self]
    · simp [hpChildren, hl]
  · intro a c k h1 h2
    simp [hpLabel, h2, labelVal, h1]
  · intro a c k h1 h2
    simp [hpAncestors, h2, ancestorsVal, h1]
  · intro a c k h1 h2
    simp [hpOutgoing, h2, outgoingVal, h1]
  · intro a c k h1 h2
    simp [hpChildren, h2, childrenVal, h1]
  · intro a c k k' v h
    rcases hl : alookup c.labelC k with _ | w
    · simp only [hpLabel, hl]
      exact alookup_insert_preserve _ _ _ _ _ hl h
    · simp only [hpLabel, hl]
      exact h
  · intro a c k k' v h
    rcases hl : alookup c.ancestorsC k with _ | w
    · simp only [hpAncestors, hl]
      exact alookup_insert_preserve _ _ _ _ _ hl h
    · simp only [hpAncestors, hl]
      exact h
  · intro a c k k' v h
    rcases hl : alookup c.outgoingC k with _ | w
    · simp only [hpOutgoing, hl]
      exact alookup_insert_preserve _ _ _ _ _ hl h
    · simp only [hpOutgoing, hl]
      exact h
  · intro a c k k' v h
    rcases hl : alookup c.childrenC k with _ | w
    · simp only [hpChildren, hl]
      exact alookup_insert_preserve _ _ _ _ _ hl h
    · simp only [hpChildren, hl]
      exact h
  · intro a c k
    rcases hl : alookup c.labelC k with _ | v <;> simp [hpLabel, hl]
  · intro a c k
    rcases hl : alookup c.ancestorsC k with _ | v <;> simp [hpAncestors, hl]
  · intro a c k
    rcases hl : alookup c.outgoingC k with _ | v <;> simp [hpOutgoing, hl]
  · intro a c k
    rcases hl : alookup c.childrenC k with _ | v <;> simp [hpChildren, hl]

def c10adRaise : Adapter :=
  ⟨fun _ => none, fun _ => none, fun _ => none, fun _ => none, fun _ _ => none⟩

def c10adGood : Adapter :=
  ⟨fun _ => some (some "Seizure"), fun _ => some ["HP:0000118"],
   fun _ => some [], fun _ => some [], fun _ _ => some []⟩

theorem c10_witness :
    (hpLabel c10adGood (hpLabel c10adRaise emptyCaches "HP:0001250").2 "HP:0001250"
        = hpLabel c10adRaise emptyCaches "HP:0001250") ∧
    (c10adRaise.label "HP:0001250" = none) ∧
    (alookup emptyCaches.labelC "HP:0001250" = none) ∧
    ((hpLabel c10adRaise emptyCaches "HP:0001250").1 = none) ∧
    (c10adRaise.ancestors "HP:0001250" = none) ∧
    (alookup emptyCaches.ancestorsC "HP:0001250" = none) ∧
    ((hpAncestors c10adRaise emptyCaches "HP:0001250").1 = []) ∧
    (alookup (hpLabel c10adRaise emptyCaches "HP:0001250").2.labelC "HP:0001250"
        = some none) ∧
    (alookup (hpLabel c10adGood (hpLabel c10adRaise emptyCaches "HP:0001250").2
        "HP:0000118").2.labelC "HP:0001250" = some none) :=
  ⟨c10_process_lifetime_caches.1 c10adRaise c10adGood emptyCaches "HP:0001250",
   rfl, rfl,
   c10_process_lifetime_caches.2.2.2.2.1 c10adRaise emptyCaches "HP:0001250" rfl rfl,
   rfl, rfl,
   c10_process_lifetime_caches.2.2.2.2.2.1 c10adRaise emptyCaches "HP:0001250" rfl rfl,
   rfl,
   c10_process_lifetime_caches.2.2.2.2.2.2.2.2.1 c10adGood
     (hpLabel c10adRaise emptyCaches "HP:0001250").2 "HP:0000118" "HP:0001250" none rfl⟩


/-! ### Claim C8 -- category membership via reflexive ancestor sets -/

/-- A cache state is coherent with an adapter when every cached entry equals
what the adapter would produce on a miss — the invariant maintained by the
read-through helpers, letting query results be phrased over the adapter
alone. -/
def Coherent (a : Adapter) (c : Caches) : Prop :=
  (∀ k v, alookup c.labelC k = some v → v = labelVal a k) ∧
  (∀ k v, alookup c.ancestorsC k = some v → v = ancestorsVal a k) ∧
  (∀ k v, alookup c.childrenC k = some v → v = childrenVal a k)

theorem coherent_empty (a : Adapter) : Coherent a emptyCaches := by
  refine ⟨?_, ?_, ?_⟩ <;> (intro k v h; cases h)

theorem coherent_categoryC (a : Adapter) (c : Caches) (x : List (String × String))
    (h : Coherent a c) : Coherent a { c with categoryC := x } := h

theorem hpLabel_fst (a : Adapter) (c : Caches) (k : String) (h : Coherent a c) :
    (hpLabel a c k).1 = labelVal a k := by
  rcases hl : alookup c.labelC k with _ | v
  · simp [hpLabel, hl]
  · simp [hpLabel, hl]
    exact h.1 k v hl

theorem hpLabel_snd (a : Adapter) (c : Caches) (k : String) (h : Coherent a c) :
    Coherent a (hpLabel a c k).2 := by
  rcases hl : alookup c.labelC k with _ | v
  · simp only [hpLabel, hl]
    refine ⟨?_, h.2.1, h.2.2⟩
    intro k' v' h'
    rw [alookup_cons] at h'
    by_cases he : k = k'
    · rw [if_pos he] at h'
      injection h' with h'
      rw [← he]
      exact h'.symm
    · rw [if_neg he] at h'
      exact h.1 k' v' h'
  · simp only [hpLabel, hl]
    exact h

theorem hpAncestors_fst (a : Adapter) (c : Caches) (k : String) (h : Coherent a c) :
    (hpAncestors a c k).1 = ancestorsVal a k := by
  rcases hl : alookup c.ancestorsC k with _ | v
  · simp [hpAncestors, hl]
  · simp [hpAncestors, hl]
    exact h.2.1 k v hl

theorem hpAncestors_snd (a : Adapter) (c : Caches) (k : String) (h : Coherent a c) :
    Coherent a (hpAncestors a c k).2 := by
  rcases hl : alookup c.ancestorsC k with _ | v
  · simp only [hpAncestors, hl]
    refine ⟨h.1, ?_, h.2.2⟩
    intro k' v' h'
    rw [alookup_cons] at h'
    by_cases he : k = k'
    · rw [if_pos he] at h'
      injection h' with h'
      rw [← he]
      exact h'.symm
    · rw [if_neg he] at h'
      exact h.2.1 k' v' h'
  · simp only [hpAncestors, hl]
    exact h

theorem hpChildren_fst (a : Adapter) (c : Caches) (k : String) (h : Coherent a c) :
    (hpChildren a c k).1 = childrenVal a k := by
  rcases hl : alookup c.childrenC k with _ | v
  · simp [hpChildren, hl]
  · simp [hpChildren, hl]
    exact h.2.2 k v hl

theorem hpChildren_snd (a : Adapter) (c : Caches) (k : String) (h : Coherent a c) :
    Coherent a (hpChildren a c k).2 := by
  rcases hl : alookup c.childrenC k with _ | v
  · simp only [hpChildren, hl]
    refine ⟨h.1, h.2.1, ?_⟩
    intro k' v' h'
    rw [alookup_cons] at h'
    by_cases he : k = k'
    · rw [if_pos he] at h'
      injection h' with h'
      rw [← he]
      exact h'.symm
    · rw [if_neg he] at h'
      exact h.2.2 k' v' h'
  · simp only [hpChildren, hl]
    exact h

theorem resolveLoop_coh (a : Adapter) (lc : List Char) :
    ∀ (l : List String) (c : Caches), Coherent a c →
      Coherent a (resolveLoop a lc l c).2 := by
  intro l
  induction l with
  | nil => intro c h; exact h
  | cons t ts ih =>
    intro c h
    rcases hb : (normLabel (hpLabel a c t).1 == lc) with _ | _
    · simp only [resolveLoop, hb, Bool.false_eq_true, if_false]
      exact ih _ (hpLabel_snd a c t h)
    · simp only [resolveLoop, hb, if_true]
      exact hpLabel_snd a c t h

theorem resolveHp_coh (a : Adapter) (c : Caches) (lbl : String) (h : Coherent a c) :
    Coherent a (resolveHpTermByLabel a c lbl).2 := by
  unfold resolveHpTermByLabel
  rcases hr : resolveLoop a ((pyStrip lbl.toList).map asciiLower)
      ((searchResults a lbl).filter hpStarts) c with ⟨topt, c'⟩
  have hc' : Coherent a c' := by
    have h2 := resolveLoop_coh a ((pyStrip lbl.toList).map asciiLower)
      ((searchResults a lbl).filter hpStarts) c h
    rw [hr] at h2
    exact h2
  rcases topt with _ | t
  · rcases hf : (searchResults a lbl).filter hpStarts with _ | ⟨t2, ts⟩ <;>
      simp only [hr, hf] <;> exact hc'
  · simp only [hr]
    exact hc'

theorem childLoop_some (a : Adapter) (key : List Char) :
    ∀ (l : List String) (c : Caches) (res : String × Option String) (c2 : Caches),
      Coherent a c → childLoop a key l c = (some res, c2) →
      res.1 ∈ l ∧ Coherent a c2 := by
  intro l
  induction l with
  | nil =>
    intro c res c2 h he
    simp [childLoop] at he
  | cons cid rest ih =>
    intro c res c2 h he
    by_cases hb : ((!(normLabel (hpLabel a c cid).1).isEmpty)
        && ((normLabel (hpLabel a c cid).1) == key
            || listContainsSub key (normLabel (hpLabel a c cid).1))) = true
    · rw [childLoop, if_pos hb] at he
      injection he with he1 he2
      injection he1 with he1
      constructor
      · rw [← he1]
        exact List.mem_cons_self cid rest
      · rw [← he2]
        exact hpLabel_snd a _ cid
          (coherent_categoryC a _ _ (hpLabel_snd a c cid h))
    · rw [childLoop, if_neg hb] at he
      have h2 := ih _ res c2 (hpLabel_snd a c cid h) he
      exact ⟨List.mem_cons_of_mem _ h2.1, h2.2⟩

theorem childLoop_none (a : Adapter) (key : List Char) :
    ∀ (l : List String) (c : Caches) (c2 : Caches),
      Coherent a c → childLoop a key l c = (none, c2) → Coherent a c2 := by
  intro l
  induction l with
  | nil =>
    intro c c2 h he
    injection he with he1 he2
    rw [← he2]
    exact h
  | cons cid rest ih =>
    intro c c2 h he
    by_cases hb : ((!(normLabel (hpLabel a c cid).1).isEmpty)
        && ((normLabel (hpLabel a c cid).1) == key
            || listContainsSub key (normLabel (hpLabel a c cid).1))) = true
    · rw [childLoop, if_pos hb] at he
      injection he with he1 he2
      cases he1
    · rw [childLoop, if_neg hb] at he
      exact ih _ c2 (hpLabel_snd a c cid h) he

theorem ancLoop_some (a : Adapter) (key : List Char) (anc : List String) (term : String) :
    ∀ (l : List String) (c : Caches) (res : String × Option String) (c2 : Caches),
      Coherent a c → ancLoop a key anc term l c = (some res, c2) →
      res.1 ∈ l ∧ Coherent a c2 := by
  intro l
  induction l with
  | nil =>
    intro c res c2 h he
    simp [ancLoop] at he
  | cons cid rest ih =>
    intro c res c2 h he
    by_cases hb : (anc.contains cid || term == cid) = true
    · rw [ancLoop, if_pos hb] at he
      injection he with he1 he2
      injection he1 with he1
      constructor
      · rw [← he1]
        exact List.mem_cons_self cid rest
      · rw [← he2]
        exact hpLabel_snd a _ cid (coherent_categoryC a _ _ h)
    · rw [ancLoop, if_neg hb] at he
      have h2 := ih _ res c2 h he
      exact ⟨List.mem_cons_of_mem _ h2.1, h2.2⟩

theorem getCategoryRoot_empty_shape (a : Adapter) (lbl : String) :
    ((getCategoryRoot a emptyCaches lbl).1 = none) ∨
    (∃ cid lab, (getCategoryRoot a emptyCaches lbl).1 = some (cid, lab) ∧
      cid ∈ childrenVal a CATEGORY_ROOT ∧
      Coherent a (getCategoryRoot a emptyCaches lbl).2) := by
  have h0 : Coherent a emptyCaches := coherent_empty a
  have hjc : (hpChildren a emptyCaches CATEGORY_ROOT).1 = childrenVal a CATEGORY_ROOT :=
    hpChildren_fst a _ _ h0
  have hjcoh : Coherent a (hpChildren a emptyCaches CATEGORY_ROOT).2 :=
    hpChildren_snd a _ _ h0
  have hlookup : alookup emptyCaches.categoryC
      (String.mk ((pyStrip lbl.toList).map asciiLower)) = none := rfl
  unfold getCategoryRoot
  rw [hlookup]
  rcases hcl : childLoop a ((pyStrip lbl.toList).map asciiLower)
      (hpChildren a emptyCaches CATEGORY_ROOT).1
      (hpChildren a emptyCaches CATEGORY_ROOT).2 with ⟨ropt, c2⟩
  rcases ropt with _ | res
  · have hc2 : Coherent a c2 := childLoop_none a _ _ _ c2 hjcoh hcl
    rcases hrv : resolveHpTermByLabel a c2 lbl with ⟨topt, c3⟩
    have hc3 : Coherent a c3 := by
      have h2 := resolveHp_coh a c2 lbl hc2
      rw [hrv] at h2
      exact h2
    dsimp only
    rw [hrv]
    rcases topt with _ | term
    · exact Or.inl rfl
    · rcases hal : ancLoop a ((pyStrip lbl.toList).map asciiLower)
          (hpAncestors a c3 term).1 term
          (hpChildren a emptyCaches CATEGORY_ROOT).1
          (hpAncestors a c3 term).2 with ⟨aopt, c4⟩
      dsimp only
      rw [hal]
      rcases aopt with _ | ares
      · exact Or.inl rfl
      · have h2 := ancLoop_some a _ _ term _ _ ares c4
          (hpAncestors_snd a _ _ hc3) hal
        refine Or.inr ⟨ares.1, ares.2, ?_, ?_, h2.2⟩
        · rfl
        · rw [← hjc]
          exact h2.1
  · have h2 := childLoop_some a _ _ _ res c2 hjcoh hcl
    refine Or.inr ⟨res.1, res.2, ?_, ?_, h2.2⟩
    · rfl
    · rw [← hjc]
      exact h2.1

theorem getCategoryRoot_spec (a : Adapter) (lbl cid : String) (lab : Option String)
    (hroot : (getCategoryRoot a emptyCaches lbl).1 = some (cid, lab)) :
    cid ∈ childrenVal a CATEGORY_ROOT ∧
      Coherent a (getCategoryRoot a emptyCaches lbl).2 := by
  rcases getCategoryRoot_empty_shape a lbl with h | ⟨cid', lab', he, hmem, hcoh⟩
  · rw [h] at hroot
    cases hroot
  · rw [he] at hroot
    injection hroot with hroot
    injection hroot with h1 h2
    rw [← h1]
    exact ⟨hmem, hcoh⟩

/-- Claim C8.  Category classification is reflexive: whenever
`get_category_root` resolves the label to a non-empty root id `cid` (always
an immediate child of `HP:0000118`, starting from fresh caches), a term whose
reflexive ancestor set (the term itself or its adapter ancestors) contains
`cid` is reported as a member, in particular the resolved root itself; and a
term none of whose reflexive ancestors is any child of `HP:0000118` is
reported as a non-member (`False`, not an error). -/
theorem c8_category_membership (a : Adapter) (hpoId lbl cid : String) (lab : Option String)
    (hroot : (getCategoryRoot a emptyCaches lbl).1 = some (cid, lab))
    (hne : cid ≠ "") :
    ((hpoId = cid ∨ cid ∈ ancestorsVal a hpoId) →
        (is_hpo_in_category a emptyCaches hpoId lbl).1 = true) ∧
    ((∀ ch ∈ childrenVal a CATEGORY_ROOT, hpoId ≠ ch ∧ ch ∉ ancestorsVal a hpoId) →
        (is_hpo_in_category a emptyCaches hpoId lbl).1 = false) := by
  obtain ⟨hmem, hcoh⟩ := getCategoryRoot_spec a lbl cid lab hroot
  have hgr : getCategoryRoot a emptyCaches lbl
      = (some (cid, lab), (getCategoryRoot a emptyCaches lbl).2) := by
    rw [← hroot]
  have hanc : (hpAncestors a (getCategoryRoot a emptyCaches lbl).2 hpoId).1
      = ancestorsVal a hpoId := hpAncestors_fst a _ _ hcoh
  unfold is_hpo_in_category
  rw [hgr]
  dsimp only
  rw [if_neg hne]
  constructor
  · intro hor
    by_cases he : hpoId = cid
    · rw [if_pos he]
    · rw [if_neg he]
      dsimp only
      rw [hanc]
      rcases hor with h1 | h2
      · exact absurd h1 he
      · exact List.elem_eq_true_of_mem h2
  · intro hall
    have hc := hall cid hmem
    rw [if_neg hc.1]
    dsimp only
    rw [hanc]
    rcases hb : (ancestorsVal a hpoId).contains cid with _ | _
    · rfl
    · exact absurd (List.mem_of_elem_eq_true hb) hc.2

def c8ad : Adapter :=
  ⟨fun k => if k = "HP:0000707" then some (some "Abnormality of the nervous system") else none,
   fun k => if k = "HP:0001250" then some ["HP:0000707", "HP:0000118"] else some [],
   fun _ => none,
   fun k => if k = "HP:0000118" then some ["HP:0000707"] else some [],
   fun _ _ => some []⟩

theorem c8_witness :
    ((getCategoryRoot c8ad emptyCaches "nervous").1
        = some ("HP:0000707", some "Abnormality of the nervous system")) ∧
    ("HP:0000707" ≠ "") ∧
    ((is_hpo_in_category c8ad emptyCaches "HP:0001250" "nervous").1 = true) ∧
    ((is_hpo_in_category c8ad emptyCaches "HP:0000707" "nervous").1 = true) ∧
    ((is_hpo_in_category c8ad emptyCaches "HP:0008888" "nervous").1 = false) :=
  ⟨by decide, by decide,
   (c8_category_membership c8ad "HP:0001250" "nervous" "HP:0000707"
      (some "Abnormality of the nervous system") (by decide) (by decide)).1
     (Or.inr (by decide)),
   (c8_category_membership c8ad "HP:0000707" "nervous" "HP:0000707"
      (some "Abnormality of the nervous system") (by decide) (by decide)).1
     (Or.inl rfl),
   (c8_category_membership c8ad "HP:0008888" "nervous" "HP:0000707"
      (some "Abnormality of the nervous system") (by decide) (by decide)).2
     (by decide)⟩

end Aurelian
